import Mathlib

/-!
Verification of the imgtowebp repository.

This file gives a shallow embedding, in Lean, of the repository's conversion
engine (`src/imgtowebp/core.py`), the two batch walkers
(`convert_to_webp.py` and `src/imgtowebp/cli.py`), and the web upload
handler (`webp_uploader/app.py` and `src/imgtowebp/web/app.py`), together
with theorems settling the specification's claims.

Modelling conventions:
- A filesystem path is a list of components (`PathT`); a filesystem is a
  finite association list from paths to byte contents, plus a set of paths
  on which deletion raises an OS error (modelling permission problems).
- The external collaborators (the PIL codec and werkzeug's filename
  sanitizer) are a parameter `Ext`; `decode`/`encode` return `Except` to
  model the exceptions the library may raise.
- Python string helpers used by the code (strip, lower, int(), split,
  substring test) are re-implemented structurally on character lists so
  that every definition evaluates by kernel reduction.
-/

namespace Imgtowebp

/-- Raw file contents: a byte sequence, one `Nat` per byte. -/
abbrev Bytes := List Nat

/-- A filesystem path, as its list of components (absolute, rooted at `[]`). -/
abbrev PathT := List String

/-- Model of a decoded PIL image: its mode string and the band names
returned by `Image.getbands()`. -/
structure PILImage where
  mode : String
  bands : List String
deriving DecidableEq

/-- External collaborators of the repository: the PIL codec (decode a byte
buffer, encode to WebP at a quality, convert an image to another mode) and
werkzeug's `secure_filename`.  `decode` and `encode` return `Except` so that
the exceptions the library may raise are represented as error values. -/
structure Ext where
  decode : Bytes → Except String PILImage
  encode : PILImage → Int → Except String Bytes
  convert : PILImage → String → PILImage
  secure_filename : String → String

/-- A filesystem snapshot: an association list from paths to contents (the
first binding for a path wins), plus the paths on which `unlink` raises an
OS error (modelling permission problems); reads and writes are unaffected
by `locked`. -/
structure FS where
  files : List (PathT × Bytes)
  locked : List PathT
deriving DecidableEq

def FS.lookup (fs : FS) (p : PathT) : Option Bytes :=
  (fs.files.find? (fun e => decide (e.1 = p))).map (fun e => e.2)

def FS.keys (fs : FS) : List PathT := fs.files.map (fun e => e.1)

/-- Writing a file: the new binding shadows any former one. -/
def FS.write (fs : FS) (p : PathT) (b : Bytes) : FS :=
  { fs with files := (p, b) :: fs.files }

/-- Removing a file (all bindings of the path). -/
def FS.erase (fs : FS) (p : PathT) : FS :=
  { fs with files := fs.files.filter (fun e => !decide (e.1 = p)) }

/-! Python string helpers, re-implemented structurally. -/

/-- Whitespace characters removed by Python's `str.strip()`. -/
def isSpaceChar (c : Char) : Bool :=
  decide (c = ' ') || decide (c = '\t') || decide (c = '\n') ||
    decide (c = '\r') || decide (c = '\x0b') || decide (c = '\x0c')

/-- Python `str.strip()`, for ASCII whitespace. -/
def pyStrip (s : String) : String :=
  String.mk (((s.toList.dropWhile isSpaceChar).reverse.dropWhile isSpaceChar).reverse)

/-- ASCII lower-casing of one character, as Python's `str.lower()` does on
ASCII input. -/
def lowerChar (c : Char) : Char :=
  if 'A' ≤ c ∧ c ≤ 'Z' then Char.ofNat (c.toNat + 32) else c

/-- ASCII `str.lower()`. -/
def lowerStr (s : String) : String := String.mk (s.toList.map lowerChar)

/-- Splitting a character list on a separator character (Python-style:
`split('/')`; an empty input gives one empty group). -/
def splitOnChar (sep : Char) (cs : List Char) : List (List Char) :=
  cs.foldr
    (fun c acc =>
      match acc with
      | [] => [[c]]
      | grp :: rest =>
        if c = sep then [] :: grp :: rest else (c :: grp) :: rest)
    [[]]

/-- Splitting a string on the path separator. -/
def splitSlash (s : String) : List String :=
  (splitOnChar '/' s.toList).map (fun cs => String.mk cs)

/-- Does the string denote an absolute POSIX path? -/
def startsWithSlash (s : String) : Bool :=
  match s.toList with
  | '/' :: _ => true
  | _ => false

/-- Boolean test that one character list is a prefix of another. -/
def isPrefixChars : List Char → List Char → Bool
  | [], _ => true
  | _ :: _, [] => false
  | a :: as, b :: bs => decide (a = b) && isPrefixChars as bs

/-- Boolean substring containment on character lists. -/
def containsSub (pat : List Char) : List Char → Bool
  | [] => isPrefixChars pat []
  | c :: cs => isPrefixChars pat (c :: cs) || containsSub pat cs

/-- Python's substring test `pat in s`. -/
def strContains (s pat : String) : Bool := containsSub pat.toList s.toList

/-- Parsing of an all-digit character list into a `Nat`. -/
def digitsToNat (cs : List Char) : Option Nat :=
  if cs ≠ [] ∧ cs.all (fun c => c.isDigit) then
    some (cs.foldl (fun n c => 10 * n + (c.toNat - 48)) 0)
  else none

/-- Python's `int()` applied to a string of an optional sign and ASCII
decimal digits (surrounding whitespace stripped); `none` models the
`ValueError` raised on any other input. -/
def pyInt (s : String) : Option Int :=
  match (pyStrip s).toList with
  | '-' :: rest => (digitsToNat rest).map (fun n => -(n : Int))
  | '+' :: rest => (digitsToNat rest).map (fun n => (n : Int))
  | cs => (digitsToNat cs).map (fun n => (n : Int))

/-! Path name helpers mirroring `pathlib.PurePath`. -/

/-- Index of the last '.' in a character list, if any. -/
def lastDotIndex (cs : List Char) : Option Nat :=
  (cs.reverse.findIdx? (fun c => decide (c = '.'))).map (fun j => cs.length - 1 - j)

/-- The `PurePath.suffix` of a file name: the final extension including its
dot; empty when the last dot is absent, leading, or trailing. -/
def nameSuffix (name : String) : String :=
  let cs := name.toList
  match lastDotIndex cs with
  | some i => if 0 < i ∧ i + 1 < cs.length then String.mk (cs.drop i) else ""
  | none => ""

/-- The `PurePath.stem` of a file name: the name with its suffix removed. -/
def nameStem (name : String) : String :=
  let cs := name.toList
  match lastDotIndex cs with
  | some i => if 0 < i ∧ i + 1 < cs.length then String.mk (cs.take i) else name
  | none => name

/-! The conversion core, translated from `src/imgtowebp/core.py` (the
standalone `convert_to_webp.py` contains the same helpers verbatim). -/

def SUPPORTED_EXTENSIONS : List String := [".jpg", ".jpeg", ".png"]

def DEFAULT_QUALITY : Int := 80

/-- Eligibility test of `convert_to_webp.should_convert` (also performed
inline in `cli.iter_images`): case-insensitive extension membership. -/
def should_convert (p : PathT) : Bool :=
  match p.getLast? with
  | some name => SUPPORTED_EXTENSIONS.contains (lowerStr (nameSuffix name))
  | none => false

/-- The `with_suffix(".webp")` output-path derivation of the walkers. -/
def to_webp_path (p : PathT) : PathT :=
  match p.getLast? with
  | some name => p.dropLast ++ [nameStem name ++ ".webp"]
  | none => []

/-- Mode normalization of `core.ensure_webp_compatible_mode` (duplicated in
`convert_to_webp.py` and `webp_uploader/app.py`): RGB/RGBA pass through;
otherwise convert to RGBA when the band set holds an alpha band, else RGB. -/
def ensure_webp_compatible_mode (ext : Ext) (img : PILImage) : PILImage :=
  if img.mode = "RGB" ∨ img.mode = "RGBA" then img
  else if "A" ∈ img.bands then ext.convert img "RGBA"
  else ext.convert img "RGB"

/-- Result record of `core.convert_image`. -/
structure ConversionResult where
  success : Bool
  message : String
  input_size : Nat := 0
  output_size : Nat := 0
  saved_bytes : Int := 0
deriving DecidableEq

/-- The duck-typed `bytes | Path` input of `core.convert_image`. -/
inductive InputData where
  | path (p : PathT)
  | bytes (b : Bytes)

/-- Translation of `core.convert_image`: refuse when the output exists and
overwrite is disabled; otherwise read or take the input bytes, decode,
normalize the mode, encode at the quality and write the output, catching
every exception into a failure result.  The evolved filesystem is returned
alongside the result. -/
def convert_image (ext : Ext) (fs : FS) (input_data : InputData) (output_path : PathT)
    (quality : Int) (overwrite : Bool) : ConversionResult × FS :=
  if (fs.lookup output_path).isSome ∧ overwrite = false then
    ({ success := false,
       message := "Output file already exists and overwrite is disabled." }, fs)
  else
    let src : Except String Bytes :=
      match input_data with
      | .path p =>
        match fs.lookup p with
        | some b => .ok b
        | none => .error "No such file or directory"
      | .bytes b => .ok b
    match src with
    | .error e => ({ success := false, message := "Error during conversion: " ++ e }, fs)
    | .ok data =>
      match ext.decode data with
      | .error e => ({ success := false, message := "Error during conversion: " ++ e }, fs)
      | .ok img0 =>
        match ext.encode (ensure_webp_compatible_mode ext img0) quality with
        | .error e => ({ success := false, message := "Error during conversion: " ++ e }, fs)
        | .ok out =>
          ({ success := true, message := "Successfully converted",
             input_size := data.length, output_size := out.length,
             saved_bytes := (data.length : Int) - (out.length : Int) },
           fs.write output_path out)

/-! The standalone batch walker, translated from `convert_to_webp.py`. -/

/-- The batch statistics record shared by both walkers. -/
structure ConversionStats where
  scanned : Nat := 0
  eligible : Nat := 0
  converted : Nat := 0
  skipped_existing : Nat := 0
  deleted_originals : Nat := 0
  failed : Nat := 0
  total_input_bytes : Nat := 0
  total_output_bytes : Nat := 0
  total_deleted_bytes : Nat := 0
deriving DecidableEq

/-- Boolean test that the first path is a prefix of the second (used both to
model directory membership during enumeration and `Path.parents`
membership). -/
def startsWithParts : PathT → PathT → Bool
  | [], _ => true
  | _ :: _, [] => false
  | a :: ra, b :: rb => decide (a = b) && startsWithParts ra rb

/-- Translation of `convert_to_webp.convert_one`: count the entry, test
eligibility, then either skip on an existing output (with the replace
deletion policy: delete the original when the existing webp is non-empty,
counting a deletion failure as failed) or convert via the codec, deleting
the original on success when replace is requested. -/
def convert_one (ext : Ext) (quality : Int) (overwrite replace : Bool)
    (fs : FS) (stats : ConversionStats) (src_path : PathT) : FS × ConversionStats :=
  let stats := { stats with scanned := stats.scanned + 1 }
  if should_convert src_path = false then (fs, stats)
  else
    let stats := { stats with eligible := stats.eligible + 1 }
    let dst_path := to_webp_path src_path
    if (fs.lookup dst_path).isSome ∧ overwrite = false then
      let stats := { stats with skipped_existing := stats.skipped_existing + 1 }
      if replace then
        match fs.lookup dst_path with
        | none => (fs, { stats with failed := stats.failed + 1 })
        | some dstData =>
          if 0 < dstData.length then
            match fs.lookup src_path with
            | none => (fs, { stats with failed := stats.failed + 1 })
            | some srcData =>
              if src_path ∈ fs.locked then (fs, { stats with failed := stats.failed + 1 })
              else
                (fs.erase src_path,
                 { stats with deleted_originals := stats.deleted_originals + 1,
                              total_deleted_bytes := stats.total_deleted_bytes + srcData.length })
          else (fs, stats)
      else (fs, stats)
    else
      match fs.lookup src_path with
      | none => (fs, { stats with failed := stats.failed + 1 })
      | some srcData =>
        match ext.decode srcData with
        | .error _ => (fs, { stats with failed := stats.failed + 1 })
        | .ok img0 =>
          match ext.encode (ensure_webp_compatible_mode ext img0) quality with
          | .error _ => (fs, { stats with failed := stats.failed + 1 })
          | .ok out =>
            let fs2 := fs.write dst_path out
            let stats := { stats with
              total_input_bytes := stats.total_input_bytes + srcData.length,
              total_output_bytes := stats.total_output_bytes + out.length,
              converted := stats.converted + 1 }
            if replace then
              if src_path ∈ fs2.locked ∨ fs2.lookup src_path = none then
                (fs2, { stats with failed := stats.failed + 1 })
              else
                (fs2.erase src_path,
                 { stats with deleted_originals := stats.deleted_originals + 1,
                              total_deleted_bytes := stats.total_deleted_bytes + srcData.length })
            else (fs2, stats)

/-- The file enumeration of `convert_to_webp.iter_images`: all files under
the directory when recursive, else its direct children, in the (fixed,
deterministic) filesystem order.  Every `FS` entry is a file, so the
`is_file` filter of the source is implicit. -/
def iter_images (fs : FS) (dir : PathT) (recursive : Bool) : List PathT :=
  fs.keys.filter (fun p =>
    if recursive then startsWithParts dir p && decide (p ≠ dir)
    else startsWithParts dir p && decide (p.length = dir.length + 1))

/-- Translation of `convert_to_webp.convert_to_webp`: a fresh statistics
record, folded through `convert_one` over the enumeration of the initial
filesystem. -/
def convert_to_webp_run (ext : Ext) (dir : PathT) (quality : Int)
    (recursive overwrite replace : Bool) (fs : FS) : FS × ConversionStats :=
  (iter_images fs dir recursive).foldl
    (fun acc p => convert_one ext quality overwrite replace acc.1 acc.2 p) (fs, {})

/-- Outcome of a CLI entry point: an early `SystemExit`, or a completed
batch run.  Both constructors carry the filesystem as it stands at that
point. -/
inductive CliOutcome where
  | exited (code : Nat) (message : String) (fs : FS)
  | completed (stats : ConversionStats) (fs : FS)
deriving DecidableEq

/-- Translation of `convert_to_webp.main` (after argument parsing): the
quality pre-flight check raises `SystemExit` (exit status 1) before any
filesystem work; otherwise the batch runs and the summary is reported. -/
def convert_to_webp_main (ext : Ext) (dir : PathT) (quality : Int)
    (no_recursive overwrite replace : Bool) (fs : FS) : CliOutcome :=
  if quality < 0 ∨ 100 < quality then
    .exited 1 "--quality must be within 0..100" fs
  else
    let out := convert_to_webp_run ext dir quality (!no_recursive) overwrite replace fs
    .completed out.2 out.1

/-! The package CLI walker, translated from `src/imgtowebp/cli.py`. -/

/-- The enumeration of `cli.iter_images`: as the standalone walker's, but
already filtered to the supported extensions. -/
def cli_iter_images (fs : FS) (dir : PathT) (recursive : Bool) : List PathT :=
  fs.keys.filter (fun p =>
    (if recursive then startsWithParts dir p && decide (p ≠ dir)
     else startsWithParts dir p && decide (p.length = dir.length + 1))
    && should_convert p)

/-- The per-file body of `cli.run_cli`'s loop: call `convert_image`, then
classify by `res.success` and the presence of the word "exists" in the
failure message; replace-deletions print but do not touch `failed` on
error. -/
def cli_process_one (ext : Ext) (quality : Int) (overwrite replace : Bool)
    (acc : FS × ConversionStats) (src_path : PathT) : FS × ConversionStats :=
  let fs := acc.1
  let stats := { acc.2 with eligible := acc.2.eligible + 1 }
  let dst_path := to_webp_path src_path
  let rf := convert_image ext fs (.path src_path) dst_path quality overwrite
  let res := rf.1
  let fs := rf.2
  if res.success then
    let stats := { stats with
      converted := stats.converted + 1,
      total_input_bytes := stats.total_input_bytes + res.input_size,
      total_output_bytes := stats.total_output_bytes + res.output_size }
    if replace then
      match fs.lookup src_path with
      | none => (fs, stats)
      | some srcData =>
        if src_path ∈ fs.locked then (fs, stats)
        else
          (fs.erase src_path,
           { stats with deleted_originals := stats.deleted_originals + 1,
                        total_deleted_bytes := stats.total_deleted_bytes + srcData.length })
    else (fs, stats)
  else
    if strContains res.message "exists" then
      let stats := { stats with skipped_existing := stats.skipped_existing + 1 }
      if replace then
        match fs.lookup src_path with
        | none => (fs, stats)
        | some srcData =>
          if src_path ∈ fs.locked then (fs, stats)
          else
            (fs.erase src_path,
             { stats with deleted_originals := stats.deleted_originals + 1,
                          total_deleted_bytes := stats.total_deleted_bytes + srcData.length })
      else (fs, stats)
    else (fs, { stats with failed := stats.failed + 1 })

/-- The batch part of `cli.run_cli`: `scanned` is pre-set to the number of
top-level files of the directory (`directory.iterdir()`), then the loop
folds over the extension-filtered enumeration. -/
def run_cli_batch (ext : Ext) (dir : PathT) (quality : Int)
    (recursive overwrite replace : Bool) (fs : FS) : FS × ConversionStats :=
  let scanned0 := (fs.keys.filter (fun p =>
    startsWithParts dir p && decide (p.length = dir.length + 1))).length
  (cli_iter_images fs dir recursive).foldl
    (cli_process_one ext quality overwrite replace) (fs, { scanned := scanned0 })

/-- Translation of `cli.run_cli` (after argument parsing): the quality
pre-flight check exits with status 1 and an error message before the
scanned count or the enumeration is computed. -/
def run_cli (ext : Ext) (dir : PathT) (quality : Int)
    (no_recursive overwrite replace : Bool) (fs : FS) : CliOutcome :=
  if ¬(0 ≤ quality ∧ quality ≤ 100) then
    .exited 1 "Error: --quality must be between 0 and 100" fs
  else
    let out := run_cli_batch ext dir quality (!no_recursive) overwrite replace fs
    .completed out.2 out.1

/-! The web upload handler, translated from `src/imgtowebp/web/app.py`
(`webp_uploader/app.py` differs only in that it inlines the engine and
clamps the quality with an if-chain; both clamping variants are modelled
below). -/

/-- Translation of `safe_subdir` (identical in both web variants): strip
the input, map absolute paths to the bare relative path, and drop every
empty, `.` or `..` component.  `Path(".")` — the "no subdirectory" result —
is represented by the empty component list. -/
def safe_subdir (subdir : String) : List String :=
  let s := pyStrip subdir
  if s = "" then []
  else if startsWithSlash s then []
  else (splitSlash s).filter
    (fun part => !(decide (part = "") || decide (part = ".") || decide (part = "..")))

/-- Path normalization of `Path.resolve()` on an absolute component list
(no symlinks modelled): drops `.` and empty components and lets `..` pop
the previous component (the filesystem root absorbs `..`). -/
def resolveParts (parts : List String) : List String :=
  parts.foldl
    (fun acc part =>
      if part = "" ∨ part = "." then acc
      else if part = ".." then acc.dropLast
      else acc ++ [part]) []

/-- The target-directory resolution and containment guard of the upload
handlers: `target_dir = (output_dir / subdir).resolve()`, falling back to
the output root when the target is neither the root itself nor one of its
descendants (`output_dir.resolve() not in target_dir.parents`).
`output_dir` is taken already resolved, as `create_app` receives it. -/
def upload_target_dir (output_dir : PathT) (subdir_raw : String) : PathT :=
  let subdir := safe_subdir subdir_raw
  let target := resolveParts (output_dir ++ subdir)
  if ¬(startsWithParts output_dir target = true ∧ target ≠ output_dir) ∧ target ≠ output_dir
  then output_dir
  else target

/-- The quality field parse of both upload handlers: `int(quality_raw)`,
falling back to `DEFAULT_QUALITY` on `ValueError`. -/
def parse_quality (raw : String) : Int :=
  match pyInt raw with
  | some q => q
  | none => DEFAULT_QUALITY

/-- The clamping if-chain of `webp_uploader/app.py`. -/
def clamp_quality_uploader (q : Int) : Int :=
  let q := if q < 0 then 0 else q
  if 100 < q then 100 else q

/-- The clamping expression `max(0, min(100, quality))` of
`src/imgtowebp/web/app.py`. -/
def clamp_quality_web (q : Int) : Int := max 0 (min 100 q)

/-- Effective quality of a `webp_uploader/app.py` upload request. -/
def effective_quality_uploader (raw : String) : Int :=
  clamp_quality_uploader (parse_quality raw)

/-- Effective quality of a `src/imgtowebp/web/app.py` upload request. -/
def effective_quality_web (raw : String) : Int :=
  clamp_quality_web (parse_quality raw)

/-- Per-item outcome record of the upload handlers. -/
structure UploadItemResult where
  original_name : String
  status : String
  message : String
  output_relpath : Option String := none
  input_bytes : Nat := 0
  output_bytes : Nat := 0
deriving DecidableEq

/-- One uploaded multipart entry: its client-supplied filename (empty for a
missing filename, which also makes the werkzeug `FileStorage` object
falsy) and its content. -/
structure UploadFile where
  filename : String
  content : Bytes
deriving DecidableEq

/-- The accumulating per-request state of the upload loop. -/
structure UploadState where
  results : List UploadItemResult := []
  total_in : Nat := 0
  total_out : Nat := 0
  converted : Nat := 0
  skipped : Nat := 0
  failed : Nat := 0
deriving DecidableEq

/-- String form of `out_path.relative_to(output_dir)`. -/
def relpathStr (output_dir out_path : PathT) : String :=
  match out_path.drop output_dir.length with
  | [] => ""
  | p :: rest => rest.foldl (fun acc q => acc ++ "/" ++ q) p

/-- The per-file body of the upload loop of `src/imgtowebp/web/app.py`:
entries with an empty or missing filename are passed over by `continue`;
unsupported extensions and empty contents are recorded as skipped; the
engine's outcome is mapped to converted, skipped (message holds "exists"),
or failed. -/
def process_upload_file (ext : Ext) (quality : Int) (overwrite : Bool)
    (output_dir target_dir : PathT) (acc : FS × UploadState) (f : UploadFile) :
    FS × UploadState :=
  let fs := acc.1
  let st := acc.2
  if f.filename = "" then (fs, st)
  else
    let safe_name := ext.secure_filename f.filename
    let extension := lowerStr (nameSuffix safe_name)
    if SUPPORTED_EXTENSIONS.contains extension = false then
      (fs, { st with
             skipped := st.skipped + 1,
             results := st.results ++
               [{ original_name := f.filename, status := "skipped",
                  message := "Unsupported file type." }] })
    else
      let stem := nameStem safe_name
      let out_path := target_dir ++ [stem ++ ".webp"]
      if f.content = [] then
        (fs, { st with
               skipped := st.skipped + 1,
               results := st.results ++
                 [{ original_name := f.filename, status := "skipped",
                    message := "Empty file." }] })
      else
        let rr := convert_image ext fs (.bytes f.content) out_path quality overwrite
        let res := rr.1
        let fs := rr.2
        if res.success then
          (fs, { st with
                 total_in := st.total_in + res.input_size,
                 total_out := st.total_out + res.output_size,
                 converted := st.converted + 1,
                 results := st.results ++
                   [{ original_name := f.filename, status := "converted",
                      message := "Saved.",
                      output_relpath := some (relpathStr output_dir out_path),
                      input_bytes := res.input_size,
                      output_bytes := res.output_size }] })
        else if strContains res.message "exists" then
          (fs, { st with
                 skipped := st.skipped + 1,
                 results := st.results ++
                   [{ original_name := f.filename, status := "skipped",
                      message := res.message,
                      output_relpath := some (relpathStr output_dir out_path) }] })
        else
          (fs, { st with
                 failed := st.failed + 1,
                 results := st.results ++
                   [{ original_name := f.filename, status := "failed",
                      message := res.message }] })

/-- The upload endpoint of `src/imgtowebp/web/app.py` (after form
extraction): parse and clamp the quality, sanitize and resolve the target
directory, and fold the per-file loop over the uploaded entries. -/
def upload_run (ext : Ext) (output_dir : PathT) (quality_raw : String)
    (overwrite : Bool) (subdir_raw : String) (files : List UploadFile) (fs : FS) :
    FS × UploadState :=
  let quality := clamp_quality_web (parse_quality quality_raw)
  let target_dir := upload_target_dir output_dir subdir_raw
  files.foldl (process_upload_file ext quality overwrite output_dir target_dir) (fs, {})

/-- A trivial external-collaborator instance: decoding always yields an RGB
image, encoding always yields one byte. -/
def trivExt : Ext where
  decode := fun _ => .ok { mode := "RGB", bands := ["R", "G", "B"] }
  encode := fun _ _ => .ok [0]
  convert := fun img m => { img with mode := m }
  secure_filename := fun s => s

/-- An external-collaborator instance whose codec always raises. -/
def failExt : Ext where
  decode := fun _ => .error "broken"
  encode := fun _ _ => .error "encoder broken"
  convert := fun img m => { img with mode := m }
  secure_filename := fun s => s

/-- A filesystem already holding the output file of interest. -/
def fsOut : FS := { files := [(["o", "x.webp"], [5])], locked := [] }

/-- A directory whose only image sits in a subdirectory. -/
def fsSubImage : FS := { files := [(["d", "sub", "a.jpg"], [1])], locked := [] }

/-- A directory with a source image and an empty already-present webp. -/
def fsEmptyWebp : FS :=
  { files := [(["d", "a.jpg"], [7, 7, 7]), (["d", "a.webp"], [])], locked := [] }

/-- A directory with a source image and a non-empty already-present webp. -/
def fsFullWebp : FS :=
  { files := [(["d", "a.jpg"], [7, 7, 7]), (["d", "a.webp"], [9])], locked := [] }

/-- As `fsFullWebp`, but deleting the source raises an OS error. -/
def fsFullWebpLocked : FS :=
  { files := [(["d", "a.jpg"], [7, 7, 7]), (["d", "a.webp"], [9])],
    locked := [["d", "a.jpg"]] }

/-- A directory holding a single top-level image. -/
def fsOneImage : FS := { files := [(["d", "a.jpg"], [1])], locked := [] }

/-! Helper lemmas about the filesystem model. -/

lemma FS.lookup_write (fs : FS) (p q : PathT) (b : Bytes) :
    (fs.write q b).lookup p = if p = q then some b else fs.lookup p := by
  by_cases h : p = q
  · subst h
    simp [FS.write, FS.lookup, List.find?]
  · simp [FS.write, FS.lookup, List.find?, Ne.symm h, h]

lemma find_filter_other {l : List (PathT × Bytes)} {p q : PathT} (h : p ≠ q) :
    (l.filter (fun e => !decide (e.1 = q))).find? (fun e => decide (e.1 = p)) =
      l.find? (fun e => decide (e.1 = p)) := by
  induction l with
  | nil => rfl
  | cons a t ih =>
    by_cases hq : a.1 = q
    · simp [List.filter_cons, List.find?, hq, Ne.symm h, ih]
    · by_cases hp : a.1 = p
      · simp [List.filter_cons, List.find?, hq, hp, h]
      · simp [List.filter_cons, List.find?, hq, hp, ih]

lemma FS.lookup_erase (fs : FS) (p q : PathT) (h : p ≠ q) :
    (fs.erase q).lookup p = fs.lookup p := by
  unfold FS.erase FS.lookup
  rw [find_filter_other h]

lemma FS.lookup_isSome_of_mem_keys (fs : FS) (p : PathT) (h : p ∈ fs.keys) :
    (fs.lookup p).isSome := by
  obtain ⟨e, he, hep⟩ := List.mem_map.mp h
  have hfind : (fs.files.find? (fun e => decide (e.1 = p))).isSome :=
    List.find?_isSome.mpr ⟨e, he, by simp [hep]⟩
  unfold FS.lookup
  cases hf : fs.files.find? (fun e => decide (e.1 = p)) with
  | none => rw [hf] at hfind; exact absurd hfind (by simp)
  | some v => rfl

/-! Helper lemmas about file names and paths. -/

lemma string_data_append (a b : String) : (a ++ b).data = a.data ++ b.data := rfl

lemma string_append_left_cancel {a b c : String} (h : a ++ b = a ++ c) : b = c := by
  have hd := congrArg String.data h
  rw [string_data_append, string_data_append] at hd
  exact congrArg String.mk (List.append_cancel_left hd)

lemma string_append_empty (s : String) : s ++ "" = s :=
  congrArg String.mk (List.append_nil s.data)

lemma nameStem_append_nameSuffix (name : String) :
    nameStem name ++ nameSuffix name = name := by
  simp only [nameStem, nameSuffix]
  cases h : lastDotIndex name.toList with
  | none => exact string_append_empty name
  | some i =>
    show (if 0 < i ∧ i + 1 < name.toList.length
          then String.mk (name.toList.take i) else name) ++
        (if 0 < i ∧ i + 1 < name.toList.length
         then String.mk (name.toList.drop i) else "") = name
    by_cases hi : 0 < i ∧ i + 1 < name.toList.length
    · rw [if_pos hi, if_pos hi]
      exact congrArg String.mk (List.take_append_drop i name.toList)
    · rw [if_neg hi, if_neg hi]
      exact string_append_empty name

lemma to_webp_path_ne_self (p : PathT) (h : should_convert p = true) :
    to_webp_path p ≠ p := by
  intro heq
  unfold should_convert at h
  unfold to_webp_path at heq
  cases hg : p.getLast? with
  | none => rw [hg] at h; exact absurd h (by simp)
  | some name =>
    rw [hg] at h heq
    have h2 : SUPPORTED_EXTENSIONS.contains (lowerStr (nameSuffix name)) = true := h
    have heq3 : p.dropLast ++ [nameStem name ++ ".webp"] = p := heq
    have hne : p ≠ [] := by
      intro hnil
      rw [hnil] at hg
      exact absurd hg (by simp)
    have hlast : p.getLast hne = name := by
      have := List.getLast?_eq_getLast p hne
      rw [hg] at this
      exact (Option.some.injEq _ _).mp this.symm
    have hp : p.dropLast ++ [name] = p := by
      rw [← hlast]
      exact List.dropLast_append_getLast hne
    have heq2 : p.dropLast ++ [nameStem name ++ ".webp"] = p.dropLast ++ [name] := by
      rw [hp]; exact heq3
    have hsing : [nameStem name ++ ".webp"] = [name] := List.append_cancel_left heq2
    have hname : nameStem name ++ ".webp" = name := by
      injection hsing
    have hsfx : nameSuffix name = ".webp" :=
      string_append_left_cancel ((nameStem_append_nameSuffix name).trans hname.symm)
    rw [hsfx] at h2
    exact absurd h2 (by decide)

/-! Helper lemmas about path prefixes and resolution. -/

lemma startsWithParts_refl (p : PathT) : startsWithParts p p = true := by
  induction p with
  | nil => rfl
  | cons a t ih => simp [startsWithParts, ih]

lemma startsWithParts_append (p xs : PathT) : startsWithParts p (p ++ xs) = true := by
  induction p with
  | nil => rfl
  | cons a t ih => simp [startsWithParts, ih]

lemma resolveParts_append_single (root : PathT) (x : String)
    (hx1 : ¬(x = "" ∨ x = ".")) (hx2 : x ≠ "..") :
    resolveParts (root ++ [x]) = resolveParts root ++ [x] := by
  unfold resolveParts
  rw [List.foldl_append]
  simp [hx1, hx2]

lemma upload_target_dir_swp (root : PathT) (s : String) :
    startsWithParts root (upload_target_dir root s) = true := by
  simp only [upload_target_dir]
  by_cases hc : ¬(startsWithParts root (resolveParts (root ++ safe_subdir s)) = true ∧
      resolveParts (root ++ safe_subdir s) ≠ root) ∧
      resolveParts (root ++ safe_subdir s) ≠ root
  · rw [if_pos hc]; exact startsWithParts_refl root
  · rw [if_neg hc]
    rcases not_and_or.mp hc with h1 | h2
    · exact (not_not.mp h1).1
    · rw [not_not.mp h2]; exact startsWithParts_refl root

/-- C3: for every decoded image, if its mode is already RGB or RGBA the
normalization step returns it unchanged; otherwise it is converted to RGBA
when its band set includes an alpha band, and to RGB when it does not. -/
theorem claim3_mode_normalization (ext : Ext) (img : PILImage) :
    ((img.mode = "RGB" ∨ img.mode = "RGBA") → ensure_webp_compatible_mode ext img = img) ∧
    (¬(img.mode = "RGB" ∨ img.mode = "RGBA") →
      (("A" ∈ img.bands) → ensure_webp_compatible_mode ext img = ext.convert img "RGBA") ∧
      (("A" ∉ img.bands) → ensure_webp_compatible_mode ext img = ext.convert img "RGB")) := by
  unfold ensure_webp_compatible_mode
  refine ⟨fun h => by rw [if_pos h], fun h => ⟨fun ha => ?_, fun ha => ?_⟩⟩
  · rw [if_neg h, if_pos ha]
  · rw [if_neg h, if_neg ha]

/-- Witness for C3 at concrete images: a palette image without alpha is
converted to RGB, and an RGB image passes through unchanged. -/
theorem claim3_mode_normalization_witness :
    ensure_webp_compatible_mode trivExt { mode := "P", bands := ["P"] } =
      trivExt.convert { mode := "P", bands := ["P"] } "RGB" ∧
    ensure_webp_compatible_mode trivExt { mode := "RGB", bands := ["R", "G", "B"] } =
      { mode := "RGB", bands := ["R", "G", "B"] } :=
  ⟨((claim3_mode_normalization trivExt { mode := "P", bands := ["P"] }).2
      (by decide)).2 (by decide),
   (claim3_mode_normalization trivExt { mode := "RGB", bands := ["R", "G", "B"] }).1
      (Or.inl rfl)⟩

/-- C10: for every input string — absolute paths, empty strings and
separator-and-dot strings included — every component of the relative path
returned by `safe_subdir` is neither empty nor a dot nor a dot-dot
segment; and whenever the cleaning leaves no component, the result is the
empty component list, the representation of the current-directory path
`Path(".")`. -/
theorem claim10_safe_subdir_clean :
    (∀ s part : String, part ∈ safe_subdir s →
      ¬(part = "" ∨ part = "." ∨ part = "..")) ∧
    (∀ s : String,
      (splitSlash (pyStrip s)).filter
          (fun part =>
            !(decide (part = "") || decide (part = ".") || decide (part = ".."))) = [] →
      safe_subdir s = []) := by
  constructor
  · intro s part h
    simp only [safe_subdir] at h
    split at h
    · exact absurd h (by simp)
    · split at h
      · exact absurd h (by simp)
      · rw [List.mem_filter] at h
        have hb := h.2
        intro hcon
        rcases hcon with h1 | h1 | h1 <;> simp [h1] at hb
  · intro s hf
    simp only [safe_subdir]
    split
    · rfl
    · split
      · rfl
      · exact hf

/-- Witness for C10: a component surviving the cleaning of a traversal
attempt is a plain name, and an input of only dots and separators cleans
to the current-directory path. -/
theorem claim10_safe_subdir_clean_witness :
    ¬("a" = "" ∨ "a" = "." ∨ "a" = "..") ∧ safe_subdir "./.." = [] :=
  ⟨claim10_safe_subdir_clean.1 "../a/./b" "a" (by decide),
   claim10_safe_subdir_clean.2 "./.." (by decide)⟩

/-- C5: for the web upload quality field, 150 is clamped to 100, minus 5 is
clamped to 0, a non-numeric input falls back to the default 80, and every
input yields an effective quality within 0..100 — in both web variants
(the if-chain of `webp_uploader/app.py` and the max-min expression of
`src/imgtowebp/web/app.py`). -/
theorem claim5_quality_clamp :
    effective_quality_uploader "150" = 100 ∧ effective_quality_web "150" = 100 ∧
    effective_quality_uploader "-5" = 0 ∧ effective_quality_web "-5" = 0 ∧
    effective_quality_uploader "abc" = 80 ∧ effective_quality_web "abc" = 80 ∧
    (∀ raw : String,
      0 ≤ effective_quality_uploader raw ∧ effective_quality_uploader raw ≤ 100 ∧
      0 ≤ effective_quality_web raw ∧ effective_quality_web raw ≤ 100) := by
  refine ⟨by decide, by decide, by decide, by decide, by decide, by decide, fun raw => ?_⟩
  have h1 : ∀ q : Int, 0 ≤ clamp_quality_uploader q ∧ clamp_quality_uploader q ≤ 100 := by
    intro q
    simp only [clamp_quality_uploader]
    split_ifs <;> omega
  have h2 : ∀ q : Int, 0 ≤ clamp_quality_web q ∧ clamp_quality_web q ≤ 100 := by
    intro q
    unfold clamp_quality_web
    rw [max_def, min_def]
    split_ifs <;> omega
  exact ⟨(h1 _).1, (h1 _).2, (h2 _).1, (h2 _).2⟩

/-- C4: when the output path already exists and overwrite is false,
`convert_image` returns a failure whose message contains the word "exists"
and leaves the filesystem unchanged. -/
theorem claim4_exists_skip (ext : Ext) (fs : FS) (input : InputData) (out : PathT)
    (q : Int) (hex : (fs.lookup out).isSome) :
    (convert_image ext fs input out q false).1.success = false ∧
    strContains (convert_image ext fs input out q false).1.message "exists" = true ∧
    (convert_image ext fs input out q false).2 = fs := by
  unfold convert_image
  rw [if_pos ⟨hex, rfl⟩]
  refine ⟨rfl, ?_, rfl⟩
  show strContains "Output file already exists and overwrite is disabled." "exists" = true
  decide

/-- Witness for C4 at a concrete filesystem already holding the output. -/
theorem claim4_exists_skip_witness :
    (convert_image trivExt fsOut (.bytes [1]) ["o", "x.webp"] 80 false).1.success = false ∧
    strContains
      (convert_image trivExt fsOut (.bytes [1]) ["o", "x.webp"] 80 false).1.message
      "exists" = true ∧
    (convert_image trivExt fsOut (.bytes [1]) ["o", "x.webp"] 80 false).2 = fsOut := by
  exact claim4_exists_skip trivExt fsOut (.bytes [1]) ["o", "x.webp"] 80 (by decide)

/-- C7: `convert_image` is a total function of its inputs (no exception
reaches the caller), and whenever the input file is missing, decoding
fails, or encoding fails, the result is a failure whose message carries the
underlying error text, with the filesystem untouched. -/
theorem claim7_no_exception (ext : Ext) (fs : FS) (out : PathT) (q : Int) (ow : Bool)
    (hskip : ¬((fs.lookup out).isSome ∧ ow = false)) :
    (∀ b e, ext.decode b = .error e →
      (convert_image ext fs (.bytes b) out q ow).1 =
        { success := false, message := "Error during conversion: " ++ e } ∧
      (convert_image ext fs (.bytes b) out q ow).2 = fs) ∧
    (∀ b img e, ext.decode b = .ok img →
      ext.encode (ensure_webp_compatible_mode ext img) q = .error e →
      (convert_image ext fs (.bytes b) out q ow).1 =
        { success := false, message := "Error during conversion: " ++ e } ∧
      (convert_image ext fs (.bytes b) out q ow).2 = fs) ∧
    (∀ p, fs.lookup p = none →
      (convert_image ext fs (.path p) out q ow).1 =
        { success := false,
          message := "Error during conversion: " ++ "No such file or directory" } ∧
      (convert_image ext fs (.path p) out q ow).2 = fs) := by
  refine ⟨fun b e hd => ?_, fun b img e hd he => ?_, fun p hp => ?_⟩
  · simp [convert_image, hskip, hd]
  · simp [convert_image, hskip, hd, he]
  · simp [convert_image, hskip, hp]

/-- Witness for C7: a concrete decoder failure is captured as a failure
result carrying the decoder's error text. -/
theorem claim7_no_exception_witness :
    (convert_image failExt { files := [], locked := [] } (.bytes [1]) ["o"] 80 false).1 =
      { success := false, message := "Error during conversion: " ++ "broken" } ∧
    (convert_image failExt { files := [], locked := [] } (.bytes [1]) ["o"] 80 false).2 =
      { files := [], locked := [] } :=
  (claim7_no_exception failExt { files := [], locked := [] } ["o"] 80 false
    (by decide)).1 [1] "broken" rfl

/-- C6: an out-of-range quality terminates both CLI entry points with a
`SystemExit` of status 1 and an error message, with the filesystem handed
back untouched and no batch statistics ever created. -/
theorem claim6_invalid_quality_exit (ext : Ext) (dir : PathT) (quality : Int)
    (nr ow rep : Bool) (fs : FS) (h : quality < 0 ∨ 100 < quality) :
    run_cli ext dir quality nr ow rep fs =
      .exited 1 "Error: --quality must be between 0 and 100" fs ∧
    convert_to_webp_main ext dir quality nr ow rep fs =
      .exited 1 "--quality must be within 0..100" fs := by
  constructor
  · unfold run_cli
    rw [if_pos (by omega : ¬(0 ≤ quality ∧ quality ≤ 100))]
  · unfold convert_to_webp_main
    rw [if_pos h]

/-- Witness for C6 at quality 101. -/
theorem claim6_invalid_quality_exit_witness :
    run_cli trivExt ["d"] 101 false false false { files := [], locked := [] } =
      .exited 1 "Error: --quality must be between 0 and 100"
        { files := [], locked := [] } :=
  (claim6_invalid_quality_exit trivExt ["d"] 101 false false false
    { files := [], locked := [] } (Or.inr (by decide))).1

/-- C2 counterexample: the requested subdirectory `../../etc` does not
resolve to the output root itself — the `..` segments are stripped and the
remaining `etc` becomes a subdirectory of the root. -/
theorem claim2_counterexample :
    upload_target_dir ["srv", "out"] "../../etc" ≠ ["srv", "out"] := by decide

/-- C2 (amended): for a resolved output root, the requested subdirectory
`../../etc` is sanitized to the subdirectory `etc` of the output root, and
for every requested subdirectory string the resolved target directory
stays within the output root. -/
theorem claim2_amended_no_escape (root : PathT) (hnorm : resolveParts root = root) :
    upload_target_dir root "../../etc" = root ++ ["etc"] ∧
    (∀ s : String, startsWithParts root (upload_target_dir root s) = true) := by
  refine ⟨?_, fun s => upload_target_dir_swp root s⟩
  have hsub : safe_subdir "../../etc" = ["etc"] := by decide
  simp only [upload_target_dir, hsub]
  rw [resolveParts_append_single root "etc" (by decide) (by decide), hnorm]
  rw [if_neg]
  intro hcon
  exact hcon.1 ⟨startsWithParts_append root ["etc"], by simp⟩

/-- Witness for C2 (amended) at a concrete resolved root. -/
theorem claim2_amended_no_escape_witness :
    upload_target_dir ["out"] "../../etc" = ["out"] ++ ["etc"] ∧
    startsWithParts ["out"] (upload_target_dir ["out"] "a/b") = true :=
  ⟨(claim2_amended_no_escape ["out"] (by decide)).1,
   (claim2_amended_no_escape ["out"] (by decide)).2 "a/b"⟩

/-- C9 counterexample: a one-entry upload whose filename is empty produces
no result item at all — in particular no `UploadItemResult` with status
"skipped" — and leaves the skipped counter at zero. -/
theorem claim9_counterexample :
    (upload_run trivExt ["o"] "80" false ""
        [{ filename := "", content := [1, 2, 3] }]
        { files := [], locked := [] }).2.results = [] ∧
    (upload_run trivExt ["o"] "80" false ""
        [{ filename := "", content := [1, 2, 3] }]
        { files := [], locked := [] }).2.skipped = 0 := by
  decide

/-- C9 (amended): an uploaded entry with an empty or missing filename is
silently passed over by the upload loop's `continue`: no result item is
recorded, no counter changes, the filesystem is untouched, and the entry's
content is never processed. -/
theorem claim9_amended_ignored (ext : Ext) (q : Int) (ow : Bool)
    (odir tdir : PathT) (fs : FS) (st : UploadState) (f : UploadFile)
    (h : f.filename = "") :
    process_upload_file ext q ow odir tdir (fs, st) f = (fs, st) := by
  simp [process_upload_file, h]

/-- Witness for C9 (amended) at a concrete empty-named entry. -/
theorem claim9_amended_ignored_witness :
    process_upload_file trivExt 80 false ["o"] ["o"]
        ({ files := [], locked := [] }, {}) { filename := "", content := [1] } =
      ({ files := [], locked := [] }, {}) := by
  exact claim9_amended_ignored trivExt 80 false ["o"] ["o"]
    { files := [], locked := [] } {} { filename := "", content := [1] } rfl

/-- C8 counterexample: the package CLI walker contradicts the claim on both
counts — run with replace on a directory whose `a.webp` is empty, it still
deletes the original `a.jpg` (and counts the deletion); and when deleting
the original fails (locked source, non-empty webp), `failed` stays 0. -/
theorem claim8_counterexample :
    (run_cli_batch trivExt ["d"] 80 true false true fsEmptyWebp).1.lookup ["d", "a.jpg"]
      = none ∧
    (run_cli_batch trivExt ["d"] 80 true false true fsEmptyWebp).2.deleted_originals
      = 1 ∧
    (run_cli_batch trivExt ["d"] 80 true false true fsFullWebpLocked).2.failed = 0 := by
  decide

/-- C8 (amended): the claim holds of the standalone walker
(`convert_to_webp.convert_one`): with replace requested, an existing target
and overwrite off, the original is deleted exactly when the existing webp
is non-empty (incrementing `deleted_originals` and `total_deleted_bytes`
by one and by the original's size), a deletion failure increments `failed`,
and the batch continues with the remaining entries.  The package CLI
walker instead deletes regardless of the webp's size and does not count
deletion failures (see the counterexample). -/
theorem claim8_amended_replace_on_skip (ext : Ext) (q : Int) (fs : FS)
    (st : ConversionStats) (src : PathT) (srcData dstData : Bytes)
    (helig : should_convert src = true)
    (hsrc : fs.lookup src = some srcData)
    (hdst : fs.lookup (to_webp_path src) = some dstData) :
    (0 < dstData.length → src ∉ fs.locked →
      convert_one ext q false true fs st src =
        (fs.erase src,
         { st with scanned := st.scanned + 1, eligible := st.eligible + 1,
                   skipped_existing := st.skipped_existing + 1,
                   deleted_originals := st.deleted_originals + 1,
                   total_deleted_bytes := st.total_deleted_bytes + srcData.length })) ∧
    (dstData.length = 0 →
      convert_one ext q false true fs st src =
        (fs, { st with scanned := st.scanned + 1, eligible := st.eligible + 1,
                       skipped_existing := st.skipped_existing + 1 })) ∧
    (0 < dstData.length → src ∈ fs.locked →
      convert_one ext q false true fs st src =
        (fs, { st with scanned := st.scanned + 1, eligible := st.eligible + 1,
                       skipped_existing := st.skipped_existing + 1,
                       failed := st.failed + 1 }) ∧
      ∀ rest : List PathT,
        (src :: rest).foldl
            (fun acc p => convert_one ext q false true acc.1 acc.2 p) (fs, st) =
          rest.foldl (fun acc p => convert_one ext q false true acc.1 acc.2 p)
            (convert_one ext q false true fs st src)) := by
  refine ⟨fun hpos hlock => ?_, fun hzero => ?_, fun hpos hlock => ⟨?_, fun rest => rfl⟩⟩
  · simp [convert_one, helig, hdst, hsrc, hpos, hlock]
  · simp [convert_one, helig, hdst, hsrc, hzero]
  · simp [convert_one, helig, hdst, hsrc, hpos, hlock]

/-- Witness for C8 (amended): a non-empty existing webp leads to deletion
of the 3-byte original with the counters bumped; a locked original leads to
a failure count instead. -/
theorem claim8_amended_replace_on_skip_witness :
    convert_one trivExt 80 false true fsFullWebp {} ["d", "a.jpg"] =
      (FS.erase fsFullWebp ["d", "a.jpg"],
       { scanned := 1, eligible := 1, skipped_existing := 1,
         deleted_originals := 1, total_deleted_bytes := 3 }) ∧
    convert_one trivExt 80 false true fsFullWebpLocked {} ["d", "a.jpg"] =
      (fsFullWebpLocked,
       { scanned := 1, eligible := 1, skipped_existing := 1, failed := 1 }) := by
  constructor
  · have h := (claim8_amended_replace_on_skip trivExt 80 fsFullWebp {} ["d", "a.jpg"]
      [7, 7, 7] [9] (by decide) (by decide) (by decide)).1 (by decide) (by decide)
    exact h.trans (by decide)
  · have h := ((claim8_amended_replace_on_skip trivExt 80 fsFullWebpLocked {}
      ["d", "a.jpg"] [7, 7, 7] [9] (by decide) (by decide) (by decide)).2.2
      (by decide) (by decide)).1
    exact h.trans (by decide)

/-! The inductive invariant behind claim C1. -/

lemma bool_eq_true_of_not_false {b : Bool} (h : ¬(b = false)) : b = true := by
  cases b
  · exact absurd rfl h
  · rfl

lemma bool_eq_false_of_not_true {b : Bool} (h : ¬(b = true)) : b = false := by
  cases b
  · rfl
  · exact absurd rfl h

lemma convert_one_step (ext : Ext) (q : Int) (ow rep : Bool) (fs : FS)
    (st : ConversionStats) (e : PathT)
    (hl : fs.locked = []) (he : (fs.lookup e).isSome) :
    (convert_one ext q ow rep fs st e).1.locked = [] ∧
    (∀ p, p ≠ e → (fs.lookup p).isSome →
      ((convert_one ext q ow rep fs st e).1.lookup p).isSome) ∧
    (convert_one ext q ow rep fs st e).2.scanned = st.scanned + 1 ∧
    ∃ d : Nat, d ≤ 1 ∧
      (convert_one ext q ow rep fs st e).2.eligible = st.eligible + d ∧
      (convert_one ext q ow rep fs st e).2.converted
          + (convert_one ext q ow rep fs st e).2.skipped_existing
          + (convert_one ext q ow rep fs st e).2.failed
        = st.converted + st.skipped_existing + st.failed + d := by
  obtain ⟨data, hdata⟩ := Option.isSome_iff_exists.mp he
  by_cases hsc : should_convert e = false
  · have heq : convert_one ext q ow rep fs st e =
        (fs, { st with scanned := st.scanned + 1 }) := by
      simp [convert_one, hsc]
    rw [heq]
    exact ⟨hl, fun p _ hp => hp, rfl, 0, by omega, rfl, by first | (simp; omega) | simp | omega⟩
  · have hsc' : should_convert e = true := bool_eq_true_of_not_false hsc
    by_cases hskip : (fs.lookup (to_webp_path e)).isSome ∧ ow = false
    · obtain ⟨dstData, hdst⟩ := Option.isSome_iff_exists.mp hskip.1
      by_cases hrep : rep = true
      · by_cases hpos : 0 < dstData.length
        · have hlock : e ∉ fs.locked := by rw [hl]; simp
          have heq : convert_one ext q ow rep fs st e =
              (fs.erase e,
               { st with scanned := st.scanned + 1, eligible := st.eligible + 1,
                         skipped_existing := st.skipped_existing + 1,
                         deleted_originals := st.deleted_originals + 1,
                         total_deleted_bytes := st.total_deleted_bytes + data.length }) := by
            simp [convert_one, hsc', hskip, hrep, hdst, hdata, hpos, hlock]
          rw [heq]
          refine ⟨hl, fun p hp hps => ?_, rfl, 1, by omega, rfl, by first | (simp; omega) | simp | omega⟩
          rw [FS.lookup_erase fs p e hp]
          exact hps
        · have heq : convert_one ext q ow rep fs st e =
              (fs, { st with scanned := st.scanned + 1, eligible := st.eligible + 1,
                             skipped_existing := st.skipped_existing + 1 }) := by
            simp [convert_one, hsc', hskip, hrep, hdst, hpos]
          rw [heq]
          exact ⟨hl, fun p _ hp => hp, rfl, 1, by omega, rfl, by first | (simp; omega) | simp | omega⟩
      · have hrep' : rep = false := bool_eq_false_of_not_true hrep
        have heq : convert_one ext q ow rep fs st e =
            (fs, { st with scanned := st.scanned + 1, eligible := st.eligible + 1,
                           skipped_existing := st.skipped_existing + 1 }) := by
          simp [convert_one, hsc', hskip, hrep']
        rw [heq]
        exact ⟨hl, fun p _ hp => hp, rfl, 1, by omega, rfl, by first | (simp; omega) | simp | omega⟩
    · cases hdec : ext.decode data with
      | error err =>
        have heq : convert_one ext q ow rep fs st e =
            (fs, { st with scanned := st.scanned + 1, eligible := st.eligible + 1,
                           failed := st.failed + 1 }) := by
          simp [convert_one, hsc', hskip, hdata, hdec]
        rw [heq]
        exact ⟨hl, fun p _ hp => hp, rfl, 1, by omega, rfl, by first | (simp; omega) | simp | omega⟩
      | ok img =>
        cases henc : ext.encode (ensure_webp_compatible_mode ext img) q with
        | error err =>
          have heq : convert_one ext q ow rep fs st e =
              (fs, { st with scanned := st.scanned + 1, eligible := st.eligible + 1,
                             failed := st.failed + 1 }) := by
            simp [convert_one, hsc', hskip, hdata, hdec, henc]
          rw [heq]
          exact ⟨hl, fun p _ hp => hp, rfl, 1, by omega, rfl, by first | (simp; omega) | simp | omega⟩
        | ok out =>
          have hne : to_webp_path e ≠ e := to_webp_path_ne_self e hsc'
          by_cases hrep : rep = true
          · have hcond : ¬(e ∈ (fs.write (to_webp_path e) out).locked ∨
                (fs.write (to_webp_path e) out).lookup e = none) := by
              intro hor
              rcases hor with h1 | h1
              · rw [show (fs.write (to_webp_path e) out).locked = fs.locked from rfl,
                  hl] at h1
                exact absurd h1 (by simp)
              · rw [FS.lookup_write, if_neg (fun hh => hne hh.symm), hdata] at h1
                exact absurd h1 (by simp)
            have heq : convert_one ext q ow rep fs st e =
                ((fs.write (to_webp_path e) out).erase e,
                 { st with scanned := st.scanned + 1, eligible := st.eligible + 1,
                           converted := st.converted + 1,
                           total_input_bytes := st.total_input_bytes + data.length,
                           total_output_bytes := st.total_output_bytes + out.length,
                           deleted_originals := st.deleted_originals + 1,
                           total_deleted_bytes := st.total_deleted_bytes + data.length }) := by
              simp [convert_one, hsc', hskip, hdata, hdec, henc, hrep, hcond]
            rw [heq]
            refine ⟨hl, fun p hp hps => ?_, rfl, 1, by omega, rfl, by first | (simp; omega) | simp | omega⟩
            rw [FS.lookup_erase _ p e hp, FS.lookup_write]
            by_cases hpd : p = to_webp_path e
            · rw [if_pos hpd]; rfl
            · rw [if_neg hpd]; exact hps
          · have hrep' : rep = false := bool_eq_false_of_not_true hrep
            have heq : convert_one ext q ow rep fs st e =
                (fs.write (to_webp_path e) out,
                 { st with scanned := st.scanned + 1, eligible := st.eligible + 1,
                           converted := st.converted + 1,
                           total_input_bytes := st.total_input_bytes + data.length,
                           total_output_bytes := st.total_output_bytes + out.length }) := by
              simp [convert_one, hsc', hskip, hdata, hdec, henc, hrep']
            rw [heq]
            refine ⟨hl, fun p hp hps => ?_, rfl, 1, by omega, rfl, by first | (simp; omega) | simp | omega⟩
            rw [FS.lookup_write]
            by_cases hpd : p = to_webp_path e
            · rw [if_pos hpd]; rfl
            · rw [if_neg hpd]; exact hps

lemma convert_one_fold_inv (ext : Ext) (q : Int) (ow rep : Bool) :
    ∀ (entries : List PathT) (fs : FS) (st : ConversionStats),
      fs.locked = [] → entries.Nodup →
      (∀ p ∈ entries, (fs.lookup p).isSome) →
      st.eligible ≤ st.scanned →
      st.converted + st.skipped_existing + st.failed ≤ st.eligible →
      ((entries.foldl (fun acc p => convert_one ext q ow rep acc.1 acc.2 p)
          (fs, st)).2.eligible ≤
        (entries.foldl (fun acc p => convert_one ext q ow rep acc.1 acc.2 p)
          (fs, st)).2.scanned ∧
       (entries.foldl (fun acc p => convert_one ext q ow rep acc.1 acc.2 p)
            (fs, st)).2.converted
          + (entries.foldl (fun acc p => convert_one ext q ow rep acc.1 acc.2 p)
              (fs, st)).2.skipped_existing
          + (entries.foldl (fun acc p => convert_one ext q ow rep acc.1 acc.2 p)
              (fs, st)).2.failed
        ≤ (entries.foldl (fun acc p => convert_one ext q ow rep acc.1 acc.2 p)
            (fs, st)).2.eligible)
  | [], fs, st, _, _, _, hA, hB => ⟨hA, hB⟩
  | e :: rest, fs, st, hl, hnd, hpres, hA, hB => by
    simp only [List.foldl_cons]
    obtain ⟨hl', hpres', hscan, d, hd, helig, hcsf⟩ :=
      convert_one_step ext q ow rep fs st e hl (hpres e (List.mem_cons_self e rest))
    obtain ⟨hnotin, hnd'⟩ := List.nodup_cons.mp hnd
    exact convert_one_fold_inv ext q ow rep rest
      (convert_one ext q ow rep fs st e).1 (convert_one ext q ow rep fs st e).2
      hl' hnd'
      (fun p hp =>
        hpres' p (fun hpe => hnotin (hpe ▸ hp)) (hpres p (List.mem_cons_of_mem e hp)))
      (by omega) (by omega)

lemma cli_process_one_counts (ext : Ext) (q : Int) (ow rep : Bool)
    (acc : FS × ConversionStats) (e : PathT) :
    (cli_process_one ext q ow rep acc e).2.eligible = acc.2.eligible + 1 ∧
    (cli_process_one ext q ow rep acc e).2.converted
        + (cli_process_one ext q ow rep acc e).2.skipped_existing
        + (cli_process_one ext q ow rep acc e).2.failed
      = acc.2.converted + acc.2.skipped_existing + acc.2.failed + 1 := by
  obtain ⟨fs, st⟩ := acc
  simp only [cli_process_one]
  repeat' split
  all_goals refine ⟨rfl, by dsimp only; omega⟩

lemma cli_fold_inv (ext : Ext) (q : Int) (ow rep : Bool) :
    ∀ (entries : List PathT) (acc : FS × ConversionStats),
      acc.2.converted + acc.2.skipped_existing + acc.2.failed ≤ acc.2.eligible →
      (entries.foldl (cli_process_one ext q ow rep) acc).2.converted
          + (entries.foldl (cli_process_one ext q ow rep) acc).2.skipped_existing
          + (entries.foldl (cli_process_one ext q ow rep) acc).2.failed
        ≤ (entries.foldl (cli_process_one ext q ow rep) acc).2.eligible
  | [], _, h => h
  | e :: rest, acc, h => by
    simp only [List.foldl_cons]
    obtain ⟨h1, h2⟩ := cli_process_one_counts ext q ow rep acc e
    exact cli_fold_inv ext q ow rep rest (cli_process_one ext q ow rep acc e) (by omega)

/-- C1 counterexample: for the package CLI walker, a recursive run over a
directory whose only image sits in a subdirectory yields `scanned = 0` (the
scanned counter only counts top-level files) but `eligible = 1`, so
`scanned ≥ eligible` fails. -/
theorem claim1_counterexample :
    (run_cli_batch trivExt ["d"] 80 true false false fsSubImage).2.scanned <
      (run_cli_batch trivExt ["d"] 80 true false false fsSubImage).2.eligible := by
  decide

/-- C1 (amended): after any batch run of the standalone walker
(`convert_to_webp.py`) on a well-formed filesystem (distinct paths) on
which no deletion raises an OS error, `scanned ≥ eligible` and
`eligible ≥ converted + skipped_existing + failed` both hold; for the
package CLI walker (`cli.py`) the second inequality holds unconditionally,
but `scanned ≥ eligible` can fail because `scanned` counts only top-level
files (see the counterexample). -/
theorem claim1_amended_batch_invariant :
    (∀ (ext : Ext) (q : Int) (rec ow rep : Bool) (dir : PathT) (fs : FS),
      fs.locked = [] → fs.keys.Nodup →
      ((convert_to_webp_run ext dir q rec ow rep fs).2.eligible ≤
         (convert_to_webp_run ext dir q rec ow rep fs).2.scanned ∧
       (convert_to_webp_run ext dir q rec ow rep fs).2.converted
           + (convert_to_webp_run ext dir q rec ow rep fs).2.skipped_existing
           + (convert_to_webp_run ext dir q rec ow rep fs).2.failed
         ≤ (convert_to_webp_run ext dir q rec ow rep fs).2.eligible)) ∧
    (∀ (ext : Ext) (q : Int) (rec ow rep : Bool) (dir : PathT) (fs : FS),
      (run_cli_batch ext dir q rec ow rep fs).2.converted
          + (run_cli_batch ext dir q rec ow rep fs).2.skipped_existing
          + (run_cli_batch ext dir q rec ow rep fs).2.failed
        ≤ (run_cli_batch ext dir q rec ow rep fs).2.eligible) := by
  constructor
  · intro ext q rec ow rep dir fs hl hnd
    unfold convert_to_webp_run
    exact convert_one_fold_inv ext q ow rep (iter_images fs dir rec) fs {} hl
      (hnd.filter _)
      (fun p hp => FS.lookup_isSome_of_mem_keys fs p (List.mem_of_mem_filter hp))
      (Nat.le_refl 0) (Nat.le_refl 0)
  · intro ext q rec ow rep dir fs
    unfold run_cli_batch
    exact cli_fold_inv ext q ow rep (cli_iter_images fs dir rec) _ (Nat.le_refl 0)

/-- Witness for C1 (amended) at a concrete one-image directory. -/
theorem claim1_amended_batch_invariant_witness :
    ((convert_to_webp_run trivExt ["d"] 80 true false false fsOneImage).2.eligible ≤
       (convert_to_webp_run trivExt ["d"] 80 true false false fsOneImage).2.scanned ∧
     (convert_to_webp_run trivExt ["d"] 80 true false false fsOneImage).2.converted
         + (convert_to_webp_run trivExt ["d"] 80 true false false fsOneImage).2.skipped_existing
         + (convert_to_webp_run trivExt ["d"] 80 true false false fsOneImage).2.failed
       ≤ (convert_to_webp_run trivExt ["d"] 80 true false false fsOneImage).2.eligible) ∧
    ((run_cli_batch trivExt ["d"] 80 true false false fsOneImage).2.converted
        + (run_cli_batch trivExt ["d"] 80 true false false fsOneImage).2.skipped_existing
        + (run_cli_batch trivExt ["d"] 80 true false false fsOneImage).2.failed
      ≤ (run_cli_batch trivExt ["d"] 80 true false false fsOneImage).2.eligible) := by
  constructor
  · exact claim1_amended_batch_invariant.1 trivExt 80 true false false ["d"] fsOneImage
      rfl (by decide)
  · exact claim1_amended_batch_invariant.2 trivExt 80 true false false ["d"] fsOneImage

end Imgtowebp

